import Mathlib

/-!
Verification development for the LIGHTER-API-AWS-FUTURES rebalancing service.

The repository rebalances a leveraged futures portfolio: `execute_order` in
`app/services/execution.py` validates the request, fetches account and market
data, plans per-symbol order intents, adjusts margin mode and leverage,
quantizes and submits market orders in two batches, and
`execute_order_with_retry` in `app/api/orders.py` retries the whole operation
with alerting.

The Python source is shallowly embedded below.  Python floats are modelled by
`Rat`: `round(x, n)` (banker`s rounding to `n` decimal places), `math.floor`
and `int(...)` truncation are translated exactly over rationals.  Collaborator
calls (AWS Secrets Manager, the Lighter account/order APIs, the signer
gateway) are modelled by an `Env` record of deterministic outcomes, and each
outgoing call is recorded in an event trace so that ordering claims can be
stated.  Exceptions are modelled by `Except` with a `Failure` type covering
both `HTTPException` and uncaught Python exceptions (`NameError`,
`ZeroDivisionError`, `KeyError`, `AttributeError`).
-/

-- `Rat.add`, `Rat.mul`, `Rat.sub` and `Rat.inv` are `[irreducible]` in
-- Batteries, which blocks kernel evaluation of concrete rational arithmetic;
-- restore default reducibility locally so that `decide` can evaluate the
-- embedded pipeline on concrete fixtures.
attribute [local semireducible] Rat.add Rat.mul Rat.sub Rat.inv

/-- Python `round` to the nearest integer with ties to even (banker`s
rounding), on rationals: used for `round(x)` and, scaled, for `round(x, n)`. -/
def rhe (x : ℚ) : ℤ :=
  if x - ⌊x⌋ < 1/2 then ⌊x⌋
  else if 1/2 < x - ⌊x⌋ then ⌊x⌋ + 1
  else if ⌊x⌋ % 2 = 0 then ⌊x⌋ else ⌊x⌋ + 1

/-- Python `round(x, n)` for `n ≥ 0` decimal places, on rationals. -/
def roundTo (n : ℕ) (x : ℚ) : ℚ :=
  (rhe (x * 10 ^ n) : ℚ) / 10 ^ n

/-- Python `int(...)` applied to a float: truncation toward zero. -/
def pyInt (q : ℚ) : ℤ :=
  if 0 ≤ q then ⌊q⌋ else -⌊-q⌋

/-- The quantization formula used for both final order batches
(`execution.py` lines 422-425 and 439-442):
`round(math.floor(round(raw / step_size, 8)) * step_size, size_decimals)`. -/
def quantizeQuantity (raw stepSize : ℚ) (sizeDecimals : ℕ) : ℚ :=
  roundTo sizeDecimals ((⌊roundTo 8 (raw / stepSize)⌋ : ℚ) * stepSize)

-- Basic bounds for the rounding helpers.

theorem rhe_ge (x : ℚ) : x - 1/2 ≤ (rhe x : ℚ) := by
  unfold rhe
  have hf : (⌊x⌋ : ℚ) ≤ x := Int.floor_le x
  have hf2 : x < (⌊x⌋ : ℚ) + 1 := Int.lt_floor_add_one x
  split
  · linarith
  · split
    · push_cast; linarith
    · split
      · linarith
      · push_cast; linarith

theorem rhe_le (x : ℚ) : (rhe x : ℚ) ≤ x + 1/2 := by
  unfold rhe
  have hf : (⌊x⌋ : ℚ) ≤ x := Int.floor_le x
  have hf2 : x < (⌊x⌋ : ℚ) + 1 := Int.lt_floor_add_one x
  split
  · linarith
  · rename_i h1
    split
    · rename_i h2
      push_cast
      have : (1:ℚ)/2 < x - ⌊x⌋ := h2
      linarith
    · rename_i h2
      have heq : x - (⌊x⌋ : ℚ) = 1/2 := le_antisymm (not_lt.mp h2) (not_lt.mp h1)
      split
      · linarith
      · push_cast; linarith

theorem rhe_nonneg {x : ℚ} (hx : 0 ≤ x) : 0 ≤ rhe x := by
  unfold rhe
  have hf : (0:ℤ) ≤ ⌊x⌋ := Int.floor_nonneg.mpr hx
  split
  · exact hf
  · split
    · omega
    · split
      · exact hf
      · omega

theorem rhe_intCast (m : ℤ) : rhe (m : ℚ) = m := by
  unfold rhe
  have h1 : ⌊(m : ℚ)⌋ = m := Int.floor_intCast m
  rw [h1, sub_self]
  norm_num

theorem roundTo_nonneg {x : ℚ} (n : ℕ) (hx : 0 ≤ x) : 0 ≤ roundTo n x := by
  unfold roundTo
  have h1 : (0:ℚ) ≤ x * 10 ^ n := by positivity
  have h2 : (0:ℤ) ≤ rhe (x * 10 ^ n) := rhe_nonneg h1
  have h3 : (0:ℚ) ≤ (rhe (x * 10 ^ n) : ℚ) := by exact_mod_cast h2
  positivity

theorem roundTo_le (n : ℕ) (x : ℚ) : roundTo n x ≤ x + 1 / (2 * 10 ^ n) := by
  unfold roundTo
  have h1 : (rhe (x * 10 ^ n) : ℚ) ≤ x * 10 ^ n + 1/2 := rhe_le _
  have hp : (0:ℚ) < (10:ℚ) ^ n := by positivity
  rw [div_le_iff₀ hp]
  have : (x + 1 / (2 * 10 ^ n)) * 10 ^ n = x * 10 ^ n + 1/2 := by
    field_simp
    ring
  rw [this]
  exact h1

theorem roundTo_mul_pow (n : ℕ) (m : ℤ) : roundTo n ((m : ℚ) / 10 ^ n) = (m : ℚ) / 10 ^ n := by
  unfold roundTo
  have hp : ((10:ℚ) ^ n) ≠ 0 := by positivity
  have h1 : (m : ℚ) / 10 ^ n * 10 ^ n = (m : ℚ) := by field_simp
  rw [h1, rhe_intCast]

-- ## Data model (app/schemas/orders.py and the Lighter API records used in execution.py)

/-- `OrderIn` from `app/schemas/orders.py`: one target allocation entry. -/
structure OrderIn where
  symbol : String
  quantity : ℚ
  leverage : ℤ
deriving Repr, DecidableEq

/-- `OrderRequest` from `app/schemas/orders.py`. -/
structure OrderRequest where
  account : String
  order : List OrderIn
deriving Repr, DecidableEq

/-- One position record of `future_account.accounts[0].positions`, with the
fields `execute_order` reads: a magnitude `position`, a `sign` (1 for long),
the `initial_margin_fraction`, the `margin_mode` and the `symbol`. -/
structure PositionRec where
  symbol : String
  position : ℚ
  sign : ℤ
  initial_margin_fraction : ℚ
  margin_mode : ℤ
deriving Repr, DecidableEq

/-- One record of `future_exchange_info.order_books`. -/
structure OrderBookRec where
  symbol : String
  market_id : ℕ
  min_base_amount : ℚ
  min_quote_amount : ℚ
  supported_size_decimals : ℕ
  supported_price_decimals : ℕ
deriving Repr, DecidableEq

/-- One record of `resp.order_book_stats` (exchange stats). -/
structure ExchangeStat where
  symbol : String
  last_trade_price : ℚ
deriving Repr, DecidableEq

/-- The single account object `future_account.accounts[0]` used by the code
(`account_index` is the value `fetch_account_index` would return). -/
structure AccountData where
  account_index : ℕ
  total_asset_value : ℚ
  positions : List PositionRec
deriving Repr, DecidableEq

/-- The per-symbol order summary dict built in step 6 of `execute_order`
(the OrderIntent of the spec).  `closePosition` models the "Y"/"N" string as
a Bool, `executeFirst` keeps the source 0/1 integer. -/
structure Intent where
  symbol : String
  percentage : ℚ
  usdAmount : ℚ
  coinAmount : ℚ
  minOrderSize : ℚ
  minNotionalSize : ℚ
  stepSize : ℚ
  sizeDecimals : ℕ
  priceDecimals : ℕ
  marketPrice : ℚ
  leverage : ℤ
  closePosition : Bool
  executeFirst : ℕ
deriving Repr, DecidableEq

/-- One final order dict of `final_order1` / `final_order2` (type is always
"MARKET" in the source and is omitted). -/
structure FinalOrder where
  symbol : String
  side : String
  quantity : ℚ
  marketPrice : ℚ
  sizeDecimals : ℕ
  priceDecimals : ℕ
deriving Repr, DecidableEq

/-- A transaction response from `create_market_order`; `code` is `none` when
the response object has no `code` attribute (the `hasattr` check in step 10).
-/
structure TxResp where
  code : Option ℤ
deriving Repr, DecidableEq

/-- One element of the per-batch response list: the submitted order together
with the gateway response. -/
structure RespItem where
  order : FinalOrder
  response : TxResp
deriving Repr, DecidableEq

/-- Outcome of one collaborator call: the call either raises or returns. -/
inductive CallOutcome (α : Type) where
  | raised (msg : String)
  | returns (a : α)
deriving Repr, DecidableEq

/-- Failures: `httpExc` models FastAPI `HTTPException(status, detail)`; the
other constructors model uncaught Python exceptions that escape
`execute_order`. -/
inductive Failure where
  | httpExc (status : ℕ) (detail : String)
  | nameError (nm : String)
  | zeroDivisionError
  | keyError (key : String)
  | attributeError (attr : String)
deriving Repr, DecidableEq

/-- `str(e)` for the modelled exceptions, used when a handler interpolates the
caught exception into a new detail string. -/
def failureText : Failure → String
  | .httpExc _ detail => detail
  | .nameError nm => "name " ++ nm ++ " is not defined"
  | .zeroDivisionError => "float division by zero"
  | .keyError key => key
  | .attributeError attr => "NoneType object has no attribute " ++ attr

/-- Events recorded for each outgoing collaborator call.  `createMarketOrder`
additionally records the `reduce_only` argument of the surrounding
`execute_final_market_orders` call (the source receives and logs this flag per
order; it is not forwarded to the gateway). -/
inductive Ev where
  | secretsFetch (account : String)
  | statsFetch
  | orderBooksFetch
  | accountFetch
  | updateLeverage (leverage : ℤ) (marginMode : ℤ) (marketIndex : ℕ)
  | createMarketOrder (marketIndex : ℕ) (clientOrderIndex : ℕ) (baseAmount : ℤ)
      (avgExecutionPrice : ℤ) (isAsk : Bool) (reduceOnly : Bool)
deriving Repr, DecidableEq

/-- Deterministic outcomes of every collaborator the run can invoke. -/
structure Env where
  secrets : Except String Unit
  exchange_stats : Except String (List ExchangeStat)
  order_books : Except String (List OrderBookRec)
  account : Except String AccountData
  update_leverage : ℤ → ℤ → ℕ → CallOutcome (Option String)
  create_market_order : ℕ → ℕ → ℤ → ℤ → Bool → CallOutcome (Option TxResp)

/-- `SignerClient.ISOLATED_MARGIN_MODE` (only its equality with a position`s
`margin_mode` matters). -/
def ISOLATED_MARGIN_MODE : ℤ := 1

instance {ε α : Type} [DecidableEq ε] [DecidableEq α] : DecidableEq (Except ε α) := by
  intro a b
  cases a <;> cases b
  case error.error e1 e2 =>
    exact if h : e1 = e2 then isTrue (by rw [h]) else isFalse (by intro c; cases c; exact h rfl)
  case error.ok e1 a2 => exact isFalse (by intro c; cases c)
  case ok.error a1 e2 => exact isFalse (by intro c; cases c)
  case ok.ok a1 a2 =>
    exact if h : a1 = a2 then isTrue (by rw [h]) else isFalse (by intro c; cases c; exact h rfl)

-- ## Lookup helpers

/-- `build_market_id_map` (execution.py line 64): a dict comprehension keyed by
symbol; on duplicate symbols the later record wins, hence the reversed search.
-/
def build_market_id_map (order_books : List OrderBookRec) (sym : String) : Option ℕ :=
  (order_books.reverse.find? (fun ob => ob.symbol == sym)).map (·.market_id)

/-- The `future_market_price` dict (execution.py line 282): symbol to last
trade price, later records winning. -/
def priceLookup (stats : List ExchangeStat) (sym : String) : Option ℚ :=
  (stats.reverse.find? (fun s => s.symbol == sym)).map (·.last_trade_price)

-- ## Step 5: current open positions (execution.py lines 306-319)

/-- One entry of `current_open_position_percentage`. -/
structure CurPos where
  symbol : String
  quantity : ℚ
  quantityPercentage : ℚ
  leverage : ℤ
deriving Repr, DecidableEq

/-- The loop body of step 5 for the already-filtered open positions.
`future_market_price[pos.symbol]` raises `KeyError` when the symbol is absent;
`int(100 / float(pos.initial_margin_fraction))` raises `ZeroDivisionError`
when the margin fraction is zero, and the subsequent division by the computed
integer `leverage` raises when that truncates to zero.  None of these is
guarded in the source, so they surface as non-HTTP failures. -/
def currentsAux (price : String → Option ℚ) (tmb : ℚ) : List PositionRec → Except Failure (List CurPos)
  | [] => .ok []
  | p :: rest =>
    match price p.symbol with
    | none => .error (.keyError p.symbol)
    | some market_price =>
      if p.initial_margin_fraction = 0 then .error .zeroDivisionError
      else
        let leverage : ℤ := pyInt (100 / p.initial_margin_fraction)
        if leverage = 0 then .error .zeroDivisionError
        else
          let signed_quantity := p.position * (if p.sign = 1 then 1 else -1)
          match currentsAux price tmb rest with
          | .error f => .error f
          | .ok tail =>
            .ok ({ symbol := p.symbol,
                   quantity := signed_quantity,
                   quantityPercentage := signed_quantity * market_price / leverage / tmb,
                   leverage := leverage } :: tail)

/-- Step 5: filter to nonzero positions, then compute the percentage records.
-/
def currentsOf (stats : List ExchangeStat) (tmb : ℚ) (positions : List PositionRec) :
    Except Failure (List CurPos) :=
  currentsAux (priceLookup stats) tmb (positions.filter (fun p => p.position ≠ 0))

-- ## Step 6: order summary (execution.py lines 322-406)

/-- The condition `not new_position or new_position.quantity == 0`
(execution.py line 335): the target allocation is absent or exactly zero. -/
def isAbsentOrZero : Option OrderIn → Bool
  | none => true
  | some t => t.quantity == 0

/-- The body of the first planning loop for one current position
(execution.py lines 325-375).  The adjusting branch divides by the rounded
market price, which raises `ZeroDivisionError` when that price is zero; the
order-book lookup returning `None` makes `order_book.min_base_amount` raise
`AttributeError`. -/
def buildPartOneEntry (targets : List OrderIn) (stats : List ExchangeStat)
    (books : List OrderBookRec) (tmb : ℚ) (cur : CurPos) : Except Failure Intent :=
  let new_position := targets.find? (fun np => np.symbol == cur.symbol)
  match priceLookup stats cur.symbol with
  | none => .error (.keyError cur.symbol)
  | some rawPrice =>
    let market_price := roundTo 8 rawPrice
    match books.find? (fun ob => ob.symbol == cur.symbol) with
    | none => .error (.attributeError "min_base_amount")
    | some order_book =>
      let min_order_size := order_book.min_base_amount
      let min_notional_size := order_book.min_quote_amount
      let step_size : ℚ := 1 / 10 ^ order_book.supported_size_decimals
      if isAbsentOrZero new_position then
        .ok { symbol := cur.symbol,
              percentage := -cur.quantityPercentage,
              usdAmount := -cur.quantityPercentage * tmb,
              coinAmount := -cur.quantity,
              minOrderSize := min_order_size,
              minNotionalSize := min_notional_size,
              stepSize := step_size,
              sizeDecimals := order_book.supported_size_decimals,
              priceDecimals := order_book.supported_price_decimals,
              marketPrice := market_price,
              leverage := cur.leverage,
              closePosition := true,
              executeFirst := 0 }
      else
        match new_position with
        | none => .error (.attributeError "quantity")
        | some t =>
          if market_price = 0 then .error .zeroDivisionError
          else
            let usd_amount := t.quantity * tmb * t.leverage
              - cur.quantityPercentage * tmb * cur.leverage
            let coin_amount := t.quantity * tmb / market_price * t.leverage
              - cur.quantityPercentage * tmb / market_price * cur.leverage
            let execute_first : ℕ :=
              if |cur.quantityPercentage * tmb / market_price * cur.leverage|
                  - |t.quantity * tmb / market_price * t.leverage| > 0 then 1 else 0
            .ok { symbol := cur.symbol,
                  percentage := t.quantity - cur.quantityPercentage,
                  usdAmount := usd_amount,
                  coinAmount := coin_amount,
                  minOrderSize := min_order_size,
                  minNotionalSize := min_notional_size,
                  stepSize := step_size,
                  sizeDecimals := order_book.supported_size_decimals,
                  priceDecimals := order_book.supported_price_decimals,
                  marketPrice := market_price,
                  leverage := t.leverage,
                  closePosition := false,
                  executeFirst := execute_first }

/-- The first planning loop (`order_part_one`). -/
def buildPartOne (curs : List CurPos) (targets : List OrderIn) (stats : List ExchangeStat)
    (books : List OrderBookRec) (tmb : ℚ) : Except Failure (List Intent) :=
  match curs with
  | [] => .ok []
  | c :: rest =>
    match buildPartOneEntry targets stats books tmb c with
    | .error f => .error f
    | .ok it =>
      match buildPartOne rest targets stats books tmb with
      | .error f => .error f
      | .ok tail => .ok (it :: tail)

/-- The body of the second planning loop for one target allocation with no
matching open position (execution.py lines 378-403).  The market price uses
`dict.get(symbol, 0)` (default 0), and the coin-amount division by that price
raises `ZeroDivisionError` when it is zero. -/
def buildPartTwoEntry (stats : List ExchangeStat) (books : List OrderBookRec) (tmb : ℚ)
    (t : OrderIn) : Except Failure Intent :=
  let market_price := roundTo 8 ((priceLookup stats t.symbol).getD 0)
  match books.find? (fun ob => ob.symbol == t.symbol) with
  | none => .error (.attributeError "min_base_amount")
  | some order_book =>
    if market_price = 0 then .error .zeroDivisionError
    else
      .ok { symbol := t.symbol,
            percentage := t.quantity,
            usdAmount := t.quantity * tmb * t.leverage,
            coinAmount := t.quantity * tmb / market_price * t.leverage,
            minOrderSize := order_book.min_base_amount,
            minNotionalSize := order_book.min_quote_amount,
            stepSize := 1 / 10 ^ order_book.supported_size_decimals,
            sizeDecimals := order_book.supported_size_decimals,
            priceDecimals := order_book.supported_price_decimals,
            marketPrice := market_price,
            leverage := t.leverage,
            closePosition := t.quantity == 0,
            executeFirst := 0 }

/-- The second planning loop (`order_part_two`): targets whose symbol already
appears among the current positions are skipped. -/
def buildPartTwo (targets : List OrderIn) (curs : List CurPos) (stats : List ExchangeStat)
    (books : List OrderBookRec) (tmb : ℚ) : Except Failure (List Intent) :=
  match targets with
  | [] => .ok []
  | t :: rest =>
    if curs.any (fun cp => cp.symbol == t.symbol) then
      buildPartTwo rest curs stats books tmb
    else
      match buildPartTwoEntry stats books tmb t with
      | .error f => .error f
      | .ok it =>
        match buildPartTwo rest curs stats books tmb with
        | .error f => .error f
        | .ok tail => .ok (it :: tail)

-- ## Step 8: batch construction (execution.py lines 417-453)

/-- Stable insertion preserving original order among equal keys, used to model
Python `sorted(..., key=lambda x: x["executeFirst"], reverse=True)`. -/
def insertByEF (x : Intent) : List Intent → List Intent
  | [] => [x]
  | y :: ys => if y.executeFirst ≤ x.executeFirst then x :: y :: ys else y :: insertByEF x ys

/-- Stable descending sort by `executeFirst` (priority intents first,
original order otherwise). -/
def sortByEFDesc : List Intent → List Intent
  | [] => []
  | x :: xs => insertByEF x (sortByEFDesc xs)

/-- The dict constructed for each final order (shared by both batches):
side from the sign of `coinAmount`, quantity from the quantization formula
applied to `abs(coinAmount)`. -/
def mkFinalOrder (o : Intent) : FinalOrder :=
  { symbol := o.symbol,
    side := if o.coinAmount ≥ 0 then "BUY" else "SELL",
    quantity := quantizeQuantity |o.coinAmount| o.stepSize o.sizeDecimals,
    marketPrice := o.marketPrice,
    sizeDecimals := o.sizeDecimals,
    priceDecimals := o.priceDecimals }

/-- Batch A membership (execution.py line 430): nonzero `coinAmount` and
`closePosition == "Y"`.  No minimum-size or minimum-notional condition. -/
def batchACond (o : Intent) : Bool :=
  |o.coinAmount| > 0 && o.closePosition

/-- Batch B membership (execution.py lines 449-451):
`int(abs(coinAmount) / stepSize) * stepSize >= minOrderSize`, the raw
`abs(coinAmount) * marketPrice >= minNotionalSize`, and
`closePosition == "N"`.  Note the size condition truncates the raw ratio
(without the 8-decimal pre-rounding of the quantization formula) and the
notional condition uses the unquantized coin amount. -/
def batchBCond (o : Intent) : Bool :=
  (pyInt (|o.coinAmount| / o.stepSize) : ℚ) * o.stepSize ≥ o.minOrderSize
    && |o.coinAmount| * o.marketPrice ≥ o.minNotionalSize
    && o.closePosition == false

/-- `final_order1` (execution.py lines 417-431). -/
def final_order1 (summary : List Intent) : List FinalOrder :=
  (sortByEFDesc (summary.filter batchACond)).map mkFinalOrder

/-- `final_order2` (execution.py lines 434-453). -/
def final_order2 (summary : List Intent) : List FinalOrder :=
  (sortByEFDesc (summary.filter batchBCond)).map mkFinalOrder

-- ## Market order executor (execution.py lines 153-234)

/-- Default slippage buffer (`slippage_percent = 0.03`). -/
def slippagePercent : ℚ := 3 / 100

/-- `base_amount = int(round(quantity * 10 ** size_decimals))`. -/
def baseAmountOf (o : FinalOrder) : ℤ := rhe (o.quantity * 10 ^ o.sizeDecimals)

/-- The slippage-adjusted worst acceptable price of one final order. -/
def worstPriceOf (o : FinalOrder) : ℚ :=
  o.marketPrice * (if o.side == "BUY" then 1 + slippagePercent else 1 - slippagePercent)

/-- `avg_execution_price = int(round(worst_price * 10 ** price_decimals))`. -/
def avgPriceOf (o : FinalOrder) : ℤ := rhe (worstPriceOf o * 10 ^ o.priceDecimals)

/-- The submission event of one final order at a given market id and client
order index, tagged with the executor run`s `reduce_only` flag. -/
def submitEvOf (o : FinalOrder) (market_id coi : ℕ) (reduceOnly : Bool) : Ev :=
  Ev.createMarketOrder market_id coi (baseAmountOf o) (avgPriceOf o)
    (o.side == "SELL") reduceOnly

/-- The loop of `execute_final_market_orders` from position `i`.
Per order: market-id lookup (400 on a missing symbol), integer scaling of
quantity and worst acceptable price, `client_order_index = base_index + i`,
then the gateway call.  A raised exception or a falsy transaction aborts the
whole batch with a 500 error; otherwise the response is appended.  Every
gateway call is recorded as an event carrying the executor`s `reduce_only`
flag. -/
def runExecutorAux (env : Env) (idmap : String → Option ℕ) (reduceOnly : Bool)
    (baseIndex : ℕ) : List FinalOrder → ℕ → List Ev × Except Failure (List RespItem)
  | [], _ => ([], .ok [])
  | o :: rest, i =>
    match idmap o.symbol with
    | none => ([], .error (.httpExc 400 ("Market ID not found for " ++ o.symbol)))
    | some market_id =>
      match env.create_market_order market_id (baseIndex + i) (baseAmountOf o)
          (avgPriceOf o) (o.side == "SELL") with
      | .raised msg =>
        ([submitEvOf o market_id (baseIndex + i) reduceOnly],
         .error (.httpExc 500 ("Failed to execute order for " ++ o.symbol ++ ": " ++ msg)))
      | .returns none =>
        ([submitEvOf o market_id (baseIndex + i) reduceOnly],
         .error (.httpExc 500
          ("Failed to execute order for " ++ o.symbol ++ ": Lighter SDK returned None")))
      | .returns (some tx) =>
        match runExecutorAux env idmap reduceOnly baseIndex rest (i + 1) with
        | (evs, .error f) =>
          (submitEvOf o market_id (baseIndex + i) reduceOnly :: evs, .error f)
        | (evs, .ok tail) =>
          (submitEvOf o market_id (baseIndex + i) reduceOnly :: evs,
           .ok ({ order := o, response := tx } :: tail))

/-- `execute_final_market_orders` with its default `base_index = 1000`
made explicit at every call site of the orchestrator. -/
def execute_final_market_orders (env : Env) (books : List OrderBookRec)
    (final_orders : List FinalOrder) (reduceOnly : Bool) (baseIndex : ℕ) :
    List Ev × Except Failure (List RespItem) :=
  runExecutorAux env (build_market_id_map books) reduceOnly baseIndex final_orders 0

-- ## Margin/leverage adjuster (execution.py lines 68-151)

/-- The loop of `execute_isolated_orders`: for each summary entry, look up the
position and the market id (400 when the id is missing); when a position
exists and is not already isolated, compute its current leverage (an
unguarded division raising `ZeroDivisionError` on a zero margin fraction,
outside the try handler) and issue an isolated-mode switch.  A gateway error
or raised exception becomes a 500 (the 502 raised for an explicit error value
is itself caught by the surrounding `except Exception` and rewrapped). -/
def isolatedAux (env : Env) (idmap : String → Option ℕ) (positions : List PositionRec) :
    List Intent → List Ev × Except Failure Unit
  | [] => ([], .ok ())
  | o :: rest =>
    match idmap o.symbol with
    | none => ([], .error (.httpExc 400 ("Market ID not found for " ++ o.symbol)))
    | some market_id =>
      match positions.find? (fun p => p.symbol == o.symbol) with
      | some p =>
        if p.margin_mode ≠ ISOLATED_MARGIN_MODE then
          if p.initial_margin_fraction = 0 then ([], .error .zeroDivisionError)
          else
            match env.update_leverage (pyInt (100 / p.initial_margin_fraction))
                ISOLATED_MARGIN_MODE market_id with
            | .raised msg =>
              ([Ev.updateLeverage (pyInt (100 / p.initial_margin_fraction))
                  ISOLATED_MARGIN_MODE market_id],
               .error (.httpExc 500
                ("Failed to set ISOLATED for " ++ o.symbol ++ ": " ++ msg)))
            | .returns (some err) =>
              ([Ev.updateLeverage (pyInt (100 / p.initial_margin_fraction))
                  ISOLATED_MARGIN_MODE market_id],
               .error (.httpExc 500
                ("Failed to set ISOLATED for " ++ o.symbol ++ ": " ++ err)))
            | .returns none =>
              match isolatedAux env idmap positions rest with
              | (evs, r) =>
                (Ev.updateLeverage (pyInt (100 / p.initial_margin_fraction))
                   ISOLATED_MARGIN_MODE market_id :: evs, r)
        else
          isolatedAux env idmap positions rest
      | none => isolatedAux env idmap positions rest

/-- `current_leverage = int(100 / float(pos.initial_margin_fraction)) if pos
else None` (execution.py line 119): the division is unguarded and raises
`ZeroDivisionError` on a zero margin fraction. -/
def currentLeverageOf (positions : List PositionRec) (sym : String) :
    Except Failure (Option ℤ) :=
  match positions.find? (fun p => p.symbol == sym) with
  | some p =>
    if p.initial_margin_fraction = 0 then .error .zeroDivisionError
    else .ok (some (pyInt (100 / p.initial_margin_fraction)))
  | none => .ok none

/-- The loop of `execute_leverage_orders`: the current leverage is computed
(with the same unguarded division) before the market-id check; the gateway is
called only when the current leverage differs from the intent leverage (a
missing position compares as `None` and always differs). -/
def leverageAux (env : Env) (idmap : String → Option ℕ) (positions : List PositionRec) :
    List Intent → List Ev × Except Failure Unit
  | [] => ([], .ok ())
  | o :: rest =>
    match currentLeverageOf positions o.symbol with
    | .error f => ([], .error f)
    | .ok current_leverage =>
      match idmap o.symbol with
      | none => ([], .error (.httpExc 400 ("Market ID not found for " ++ o.symbol)))
      | some market_id =>
        if current_leverage ≠ some o.leverage then
          match env.update_leverage o.leverage ISOLATED_MARGIN_MODE market_id with
          | .raised msg =>
            ([Ev.updateLeverage o.leverage ISOLATED_MARGIN_MODE market_id],
             .error (.httpExc 500
              ("Failed to update leverage for " ++ o.symbol ++ ": " ++ msg)))
          | .returns (some err) =>
            ([Ev.updateLeverage o.leverage ISOLATED_MARGIN_MODE market_id],
             .error (.httpExc 500
              ("Failed to update leverage for " ++ o.symbol ++ ": " ++ err)))
          | .returns none =>
            match leverageAux env idmap positions rest with
            | (evs, r) => (Ev.updateLeverage o.leverage ISOLATED_MARGIN_MODE market_id :: evs, r)
        else
          leverageAux env idmap positions rest

-- ## Execution orchestrator (execution.py lines 238-490)

/-- `sum(abs(o.quantity) for o in args.order)`. -/
def sumAbsQuantities (os : List OrderIn) : ℚ :=
  os.foldl (fun a o => a + |o.quantity|) 0

/-- Everything `execute_order` has computed once planning succeeds. -/
structure PlanOut where
  stats : List ExchangeStat
  books : List OrderBookRec
  acct : AccountData
  currents : List CurPos
  summary : List Intent
deriving Repr, DecidableEq

/-- Steps 1-6 of `execute_order` (validation, the three data fetches, the
margin balance check, current positions and the order summary), with the
events of the calls actually made.  Validation precedes the exchange-stats,
order-books and account fetches, and the truthiness checks of the source are
kept: only an empty stats list triggers the `Invalid market price response`
error, while the order-books and account responses are objects and always
truthy. -/
def planPhase (env : Env) (args : OrderRequest) : List Ev × Except Failure PlanOut :=
  if sumAbsQuantities args.order > 1 then
    ([], .error (.httpExc 400 "Sum input order > 100%"))
  else if (args.order.find? (fun o => o.leverage > 5)).isSome then
    ([], .error (.httpExc 400 "Leverage factor cannot be more than 5"))
  else
    match env.exchange_stats with
    | .error msg =>
      ([Ev.statsFetch], .error (.httpExc 502 ("Failed to fetch future market price: " ++ msg)))
    | .ok stats =>
      if stats.isEmpty then
        ([Ev.statsFetch], .error (.httpExc 502
          "Failed to fetch future market price: Invalid market price response"))
      else
        match env.order_books with
        | .error msg =>
          ([Ev.statsFetch, Ev.orderBooksFetch],
           .error (.httpExc 502 ("Failed to fetch future exchange info: " ++ msg)))
        | .ok books =>
          match env.account with
          | .error msg =>
            ([Ev.statsFetch, Ev.orderBooksFetch, Ev.accountFetch],
             .error (.httpExc 502 ("Failed to fetch future account: " ++ msg)))
          | .ok acct =>
            if acct.total_asset_value * (98 / 100) = 0 then
              ([Ev.statsFetch, Ev.orderBooksFetch, Ev.accountFetch],
               .error (.httpExc 400 "Total margin balance is 0"))
            else
              match currentsOf stats (acct.total_asset_value * (98 / 100)) acct.positions with
              | .error f => ([Ev.statsFetch, Ev.orderBooksFetch, Ev.accountFetch], .error f)
              | .ok curs =>
                match buildPartOne curs args.order stats books
                    (acct.total_asset_value * (98 / 100)) with
                | .error f => ([Ev.statsFetch, Ev.orderBooksFetch, Ev.accountFetch], .error f)
                | .ok p1 =>
                  match buildPartTwo args.order curs stats books
                      (acct.total_asset_value * (98 / 100)) with
                  | .error f => ([Ev.statsFetch, Ev.orderBooksFetch, Ev.accountFetch], .error f)
                  | .ok p2 =>
                    ([Ev.statsFetch, Ev.orderBooksFetch, Ev.accountFetch],
                     .ok { stats := stats, books := books, acct := acct,
                           currents := curs, summary := p1 ++ p2 })

/-- Step 7 of `execute_order`: the isolated pass then the leverage pass over
the combined summary. -/
def runAdjuster (env : Env) (p : PlanOut) : List Ev × Except Failure Unit :=
  match isolatedAux env (build_market_id_map p.books) p.acct.positions p.summary with
  | (evs, .error f) => (evs, .error f)
  | (evs, .ok _) =>
    match leverageAux env (build_market_id_map p.books) p.acct.positions p.summary with
    | (evs2, r) => (evs ++ evs2, r)

/-- Step 10 of `execute_order`: an acknowledged response whose `code`
attribute exists and differs from 200. -/
def hasBatchError (items : List RespItem) : Bool :=
  items.any (fun it =>
    match it.response.code with
    | some c => c ≠ 200
    | none => false)

/-- The structured success payload of `execute_order`. -/
structure SuccessResult where
  currentPosition : List CurPos
  allOrderBeforeAdjusted : List Intent
  order1AfterAdjusted : List FinalOrder
  order2AfterAdjusted : List FinalOrder
  order1Response : List RespItem
  order2Response : List RespItem
deriving Repr, DecidableEq

/-- An orchestration outcome: the ordered trace of collaborator calls and the
returned result or raised failure. -/
structure Outcome where
  events : List Ev
  result : Except Failure SuccessResult
deriving Repr, DecidableEq

/-- The body of `execute_order` after the signer client is built
(execution.py lines 269-490): validation and planning, margin/leverage
adjustment (whose failures are rewrapped as a 500), Batch A execution with
`base_index` left at its default 1000, then Batch B execution with the same
default, then the post-hoc response-code check. -/
def execute_order_main (env : Env) (args : OrderRequest) : Outcome :=
  match planPhase env args with
  | (evs, .error f) => { events := evs, result := .error f }
  | (evs, .ok p) =>
    match runAdjuster env p with
    | (aEvs, .error f) =>
      { events := evs ++ aEvs,
        result := .error (.httpExc 500
          ("Error executing leverage/margin updates: " ++ failureText f)) }
    | (aEvs, .ok _) =>
      let f1 := final_order1 p.summary
      let f2 := final_order2 p.summary
      match execute_final_market_orders env p.books f1 true 1000 with
      | (e1, .error f) => { events := evs ++ aEvs ++ e1, result := .error f }
      | (e1, .ok resp1) =>
        match execute_final_market_orders env p.books f2 false 1000 with
        | (e2, .error f) => { events := evs ++ aEvs ++ e1 ++ e2, result := .error f }
        | (e2, .ok resp2) =>
          if hasBatchError (resp1 ++ resp2) then
            { events := evs ++ aEvs ++ e1 ++ e2,
              result := .error (.httpExc 502
                "One or more orders failed (Lighter API returned an error code).") }
          else
            { events := evs ++ aEvs ++ e1 ++ e2,
              result := .ok { currentPosition := p.currents,
                              allOrderBeforeAdjusted := p.summary,
                              order1AfterAdjusted := f1,
                              order2AfterAdjusted := f2,
                              order1Response := resp1,
                              order2Response := resp2 } }

/-- Whether the module scope of `app/services/execution.py` binds the name
`secret_data`.  It does not: the module-level bindings are the imports and
`BASE_URL`, `BATCH_SIZE`, `DELAY_MS`; the fetched secret is a local variable
of `execute_order`. -/
def module_scope_has_secret_data : Bool := false

/-- `fetch_account_index` (execution.py lines 44-47): the call argument
`secret_data.get("WALLET_ADDRESS")` is evaluated before the account API
request is issued, and since `secret_data` is not bound at module scope this
raises `NameError` with no API call made.  The branch under
`module_scope_has_secret_data` is the behaviour the rest of the function
would have if the name were defined. -/
def fetch_account_index (env : Env) : List Ev × Except Failure ℕ :=
  if module_scope_has_secret_data then
    match env.account with
    | .error msg => ([Ev.accountFetch], .error (.httpExc 502 msg))
    | .ok acct => ([Ev.accountFetch], .ok acct.account_index)
  else
    ([], .error (.nameError "secret_data"))

/-- `execute_order` (execution.py lines 238-490): fetch the secret (502 on
failure), call `fetch_account_index` inside a try whose handler converts any
exception into a 502 `Failed to fetch account index` error, validate the
falsy-index case, then run the main body. -/
def execute_order (env : Env) (args : OrderRequest) : Outcome :=
  match env.secrets with
  | .error msg =>
    { events := [Ev.secretsFetch args.account],
      result := .error (.httpExc 502 ("Failed to fetch secret: " ++ msg)) }
  | .ok _ =>
    match fetch_account_index env with
    | (evs, .error f) =>
      { events := Ev.secretsFetch args.account :: evs,
        result := .error (.httpExc 502
          ("Failed to fetch account index: " ++ failureText f)) }
    | (evs, .ok account_index) =>
      if account_index = 0 then
        { events := Ev.secretsFetch args.account :: evs,
          result := .error (.httpExc 502
            "Failed to fetch account index: Invalid account index response") }
      else
        let rest := execute_order_main env args
        { events := (Ev.secretsFetch args.account :: evs) ++ rest.events,
          result := rest.result }

-- ## Retry/notification wrapper (app/api/orders.py lines 48-145)

/-- The alerts `execute_order_with_retry` sends through `alert_to_line_bot`. -/
inductive Alert where
  | success (attempt : ℕ)
  | attemptFailure (attempt : ℕ) (f : Failure)
  | maxRetries
deriving Repr, DecidableEq

/-- The retry loop with `k` attempts remaining and `n` the 1-based attempt
number.  On success: one success alert, return the result.  On failure: one
per-attempt failure alert; on the last attempt additionally the
`Max retries reached` alert, then the `HTTPException` is re-raised unchanged
while any other exception is wrapped into a 500 whose detail carries the
stringified error and the attempt number.  The result is the attempt count,
the ordered alert list, and the surfaced outcome.  The `k = 0` base case is
unreachable from the entry point with `MAX_RETRIES = 3`. -/
def retryAux {α : Type} (stub : ℕ → Except Failure α) :
    ℕ → ℕ → ℕ × List Alert × Except Failure α
  | 0, _ => (0, [], .error (.httpExc 500 "loop exhausted"))
  | k + 1, n =>
    match stub n with
    | .ok r => (1, [Alert.success n], .ok r)
    | .error f =>
      if k = 0 then
        match f with
        | .httpExc s d =>
          (1, [Alert.attemptFailure n f, Alert.maxRetries], .error (.httpExc s d))
        | other =>
          (1, [Alert.attemptFailure n f, Alert.maxRetries],
           .error (.httpExc 500
             ("Unexpected error on attempt " ++ toString n ++ ": " ++ failureText other)))
      else
        match retryAux stub k (n + 1) with
        | (c, alerts, out) => (c + 1, Alert.attemptFailure n f :: alerts, out)

/-- `execute_order_with_retry` over a stub orchestrator: `MAX_RETRIES = 3`,
attempt numbers starting at 1 (the 3-second waits are irrelevant to the
modelled behaviour). -/
def execute_order_with_retry {α : Type} (stub : ℕ → Except Failure α) :
    ℕ × List Alert × Except Failure α :=
  retryAux stub 3 1

-- ## Concrete fixtures used by witnesses and counterexamples

/-- A gateway whose `update_leverage` always succeeds with no error value. -/
def gwOK_ul : ℤ → ℤ → ℕ → CallOutcome (Option String) := fun _ _ _ => .returns none

/-- A gateway whose `create_market_order` always acknowledges with code 200. -/
def gwOK_cm : ℕ → ℕ → ℤ → ℤ → Bool → CallOutcome (Option TxResp) :=
  fun _ _ _ _ _ => .returns (some { code := some 200 })

def btcBook : OrderBookRec :=
  { symbol := "BTC"
    market_id := 0
    min_base_amount := 1/1000
    min_quote_amount := 10
    supported_size_decimals := 2
    supported_price_decimals := 2 }

def ethBook : OrderBookRec :=
  { symbol := "ETH"
    market_id := 1
    min_base_amount := 1/1000
    min_quote_amount := 10
    supported_size_decimals := 3
    supported_price_decimals := 2 }

/-- A long BTC position of 0.01 at 3x leverage
(`int(100 / 32) = 3`; 32 is also exactly representable in binary floating
point, so the rational model agrees with the float source here), already in
isolated mode. -/
def btcPos : PositionRec :=
  { symbol := "BTC"
    position := 1/100
    sign := 1
    initial_margin_fraction := 32
    margin_mode := 1 }

/-- Environment with one open BTC position and BTC/ETH markets at price 100,
total asset value 1000 (margin balance 980), healthy collaborators. -/
def demoEnv : Env :=
  { secrets := .ok ()
    exchange_stats := .ok [{ symbol := "BTC", last_trade_price := 100 },
                           { symbol := "ETH", last_trade_price := 100 }]
    order_books := .ok [btcBook, ethBook]
    account := .ok { account_index := 7, total_asset_value := 1000, positions := [btcPos] }
    update_leverage := gwOK_ul
    create_market_order := gwOK_cm }

/-- A request that closes BTC (absent from targets) and opens ETH. -/
def demoArgs : OrderRequest :=
  { account := "acct", order := [{ symbol := "ETH", quantity := 1/10, leverage := 2 }] }

/-- BTC order book with deliberately huge minimum order and notional sizes. -/
def c4Book : OrderBookRec :=
  { symbol := "BTC"
    market_id := 0
    min_base_amount := 1
    min_quote_amount := 1000
    supported_size_decimals := 2
    supported_price_decimals := 2 }

def envC4 : Env :=
  { secrets := .ok ()
    exchange_stats := .ok [{ symbol := "BTC", last_trade_price := 100 }]
    order_books := .ok [c4Book]
    account := .ok { account_index := 7, total_asset_value := 1000, positions := [btcPos] }
    update_leverage := gwOK_ul
    create_market_order := gwOK_cm }

/-- Target allocation naming BTC with fraction exactly zero at leverage 3. -/
def argsC4 : OrderRequest :=
  { account := "acct", order := [{ symbol := "BTC", quantity := 0, leverage := 3 }] }

/-- A long BTC position of 0.0001 at 2x leverage, already isolated. -/
def c7Pos : PositionRec :=
  { symbol := "BTC"
    position := 1/10000
    sign := 1
    initial_margin_fraction := 50
    margin_mode := 1 }

def c7Book : OrderBookRec :=
  { symbol := "BTC"
    market_id := 0
    min_base_amount := 1/1000
    min_quote_amount := 10
    supported_size_decimals := 3
    supported_price_decimals := 2 }

def envC7 : Env :=
  { secrets := .ok ()
    exchange_stats := .ok [{ symbol := "BTC", last_trade_price := 100 }]
    order_books := .ok [c7Book]
    account := .ok { account_index := 7, total_asset_value := 1000, positions := [c7Pos] }
    update_leverage := gwOK_ul
    create_market_order := gwOK_cm }

/-- An empty target allocation (close everything). -/
def argsEmpty : OrderRequest := { account := "acct", order := [] }

/-- An open BTC position whose `initial_margin_fraction` is zero. -/
def c9Pos : PositionRec :=
  { symbol := "BTC"
    position := 1/100
    sign := 1
    initial_margin_fraction := 0
    margin_mode := 1 }

def envC9 : Env :=
  { secrets := .ok ()
    exchange_stats := .ok [{ symbol := "BTC", last_trade_price := 100 }]
    order_books := .ok [c7Book]
    account := .ok { account_index := 7, total_asset_value := 1000, positions := [c9Pos] }
    update_leverage := gwOK_ul
    create_market_order := gwOK_cm }

/-- A flat (position = 0) ETH record with zero margin fraction, not isolated:
skipped by the planner`s open-position filter but still found by the
adjuster`s unfiltered position lookup. -/
def c9bPos : PositionRec :=
  { symbol := "ETH"
    position := 0
    sign := 1
    initial_margin_fraction := 0
    margin_mode := 0 }

def envC9b : Env :=
  { secrets := .ok ()
    exchange_stats := .ok [{ symbol := "ETH", last_trade_price := 100 }]
    order_books := .ok [ethBook]
    account := .ok { account_index := 7, total_asset_value := 1000, positions := [c9bPos] }
    update_leverage := gwOK_ul
    create_market_order := gwOK_cm }

def argsC9b : OrderRequest :=
  { account := "acct", order := [{ symbol := "ETH", quantity := 1/10, leverage := 2 }] }

/-- A request whose allocation fractions sum to 3/2 > 1. -/
def argsC2 : OrderRequest :=
  { account := "acct", order := [{ symbol := "BTC", quantity := 3/2, leverage := 2 }] }

/-- A request with leverage 0, outside the documented [1,5] range. -/
def argsLev0 : OrderRequest :=
  { account := "acct", order := [{ symbol := "ETH", quantity := 1/10, leverage := 0 }] }

/-- A non-closing intent whose raw coin amount 0.999999996 truncates to 0
steps but quantizes (via the 8-decimal pre-rounding) to a full step. -/
def oStar : Intent :=
  { symbol := "X"
    percentage := 0
    usdAmount := 0
    coinAmount := 249999999/250000000
    minOrderSize := 1
    minNotionalSize := 0
    stepSize := 1
    sizeDecimals := 0
    priceDecimals := 2
    marketPrice := 100
    leverage := 1
    closePosition := false
    executeFirst := 0 }

/-- The intent of the spec example: quantized quantity 0.0005 at price 100
against minimums 0.001 and 10. -/
def oEx : Intent :=
  { symbol := "X"
    percentage := 0
    usdAmount := 0
    coinAmount := 1/2000
    minOrderSize := 1/1000
    minNotionalSize := 10
    stepSize := 1/10000
    sizeDecimals := 4
    priceDecimals := 2
    marketPrice := 100
    leverage := 1
    closePosition := false
    executeFirst := 0 }

/-- A small closing intent, used to witness batch membership facts. -/
def cIntent : Intent :=
  { symbol := "BTC"
    percentage := 0
    usdAmount := -1
    coinAmount := -1/100
    minOrderSize := 1/1000
    minNotionalSize := 10
    stepSize := 1/100
    sizeDecimals := 2
    priceDecimals := 2
    marketPrice := 100
    leverage := 3
    closePosition := true
    executeFirst := 0 }

-- ## Event classification helpers

/-- Whether an event is a market-order submission. -/
def isCreateEv : Ev → Bool
  | .createMarketOrder _ _ _ _ _ _ => true
  | _ => false

/-- Whether an event is a market-order submission made by the executor run
with the given `reduce_only` flag (`true` for Batch A, `false` for Batch B).
-/
def isSubmitEv (r : Bool) : Ev → Bool
  | .createMarketOrder _ _ _ _ _ r2 => r2 == r
  | _ => false

/-- The `client_order_index` of a submission event. -/
def coiOf : Ev → Option ℕ
  | .createMarketOrder _ coi _ _ _ _ => some coi
  | _ => none

-- ## Helper lemmas

theorem mem_insertByEF {a x : Intent} {l : List Intent} :
    a ∈ insertByEF x l ↔ a = x ∨ a ∈ l := by
  induction l with
  | nil => simp [insertByEF]
  | cons y ys ih =>
    unfold insertByEF
    split
    · simp [List.mem_cons]
    · simp [List.mem_cons, ih]
      tauto

theorem mem_sortByEFDesc {a : Intent} {l : List Intent} :
    a ∈ sortByEFDesc l ↔ a ∈ l := by
  induction l with
  | nil => simp [sortByEFDesc]
  | cons x xs ih => simp [sortByEFDesc, mem_insertByEF, ih, List.mem_cons]

theorem rhe_nonpos {x : ℚ} (hx : x ≤ 0) : rhe x ≤ 0 := by
  have h := rhe_le x
  by_contra hc
  push_neg at hc
  have h1 : (1:ℚ) ≤ (rhe x : ℚ) := by exact_mod_cast hc
  linarith

theorem roundTo_zero (n : ℕ) : roundTo n 0 = 0 := by
  unfold roundTo
  rw [zero_mul]
  have h : rhe ((0:ℤ) : ℚ) = 0 := rhe_intCast 0
  simp only [Int.cast_zero] at h
  rw [h]
  simp

theorem roundTo_nonpos {x : ℚ} (n : ℕ) (hx : x ≤ 0) : roundTo n x ≤ 0 := by
  unfold roundTo
  have hp : (0:ℚ) < 10 ^ n := by positivity
  have h1 : x * 10 ^ n ≤ 0 := mul_nonpos_of_nonpos_of_nonneg hx hp.le
  have h2 : rhe (x * 10 ^ n) ≤ 0 := rhe_nonpos h1
  have h3 : ((rhe (x * 10 ^ n)) : ℚ) ≤ 0 := by exact_mod_cast h2
  exact div_nonpos_of_nonpos_of_nonneg h3 hp.le

theorem quantize_abs_nonneg (c step : ℚ) (d : ℕ) : 0 ≤ quantizeQuantity |c| step d := by
  unfold quantizeQuantity
  apply roundTo_nonneg
  rcases lt_trichotomy step 0 with h | h | h
  · have h1 : |c| / step ≤ 0 := div_nonpos_of_nonneg_of_nonpos (abs_nonneg c) h.le
    have h2 : roundTo 8 (|c| / step) ≤ 0 := roundTo_nonpos 8 h1
    have h3 : ⌊roundTo 8 (|c| / step)⌋ ≤ 0 := Int.floor_nonpos h2
    have h4 : ((⌊roundTo 8 (|c| / step)⌋ : ℤ) : ℚ) ≤ 0 := by exact_mod_cast h3
    nlinarith
  · subst h
    rw [div_zero, roundTo_zero, mul_zero]
  · have h1 : 0 ≤ |c| / step := div_nonneg (abs_nonneg c) h.le
    have h2 : 0 ≤ roundTo 8 (|c| / step) := roundTo_nonneg 8 h1
    have h3 : 0 ≤ ⌊roundTo 8 (|c| / step)⌋ := Int.floor_nonneg.mpr h2
    have h4 : 0 ≤ ((⌊roundTo 8 (|c| / step)⌋ : ℤ) : ℚ) := by exact_mod_cast h3
    exact mul_nonneg h4 h.le

theorem isSubmitEv_submitEvOf (o : FinalOrder) (mid coi : ℕ) (r : Bool) :
    isSubmitEv r (submitEvOf o mid coi r) = true := by
  simp [isSubmitEv, submitEvOf]

theorem runExecutorAux_events (env : Env) (idmap : String → Option ℕ) (r : Bool)
    (b : ℕ) (orders : List FinalOrder) :
    ∀ (i : ℕ), ∀ e ∈ (runExecutorAux env idmap r b orders i).1, isSubmitEv r e = true := by
  induction orders with
  | nil => intro i e he; simp [runExecutorAux] at he
  | cons o rest ih =>
    intro i e he
    unfold runExecutorAux at he
    split at he
    · simp at he
    · split at he
      · simp at he
        subst he
        exact isSubmitEv_submitEvOf ..
      · simp at he
        subst he
        exact isSubmitEv_submitEvOf ..
      · split at he
        · rename_i evs f heq
          simp at he
          rcases he with he | he
          · subst he; exact isSubmitEv_submitEvOf ..
          · exact ih (i + 1) e (by rw [heq]; exact he)
        · rename_i evs tail heq
          simp at he
          rcases he with he | he
          · subst he; exact isSubmitEv_submitEvOf ..
          · exact ih (i + 1) e (by rw [heq]; exact he)

theorem runExecutorAux_ok_length (env : Env) (idmap : String → Option ℕ) (r : Bool)
    (b : ℕ) (orders : List FinalOrder) :
    ∀ (i : ℕ) (evs : List Ev) (resp : List RespItem),
      runExecutorAux env idmap r b orders i = (evs, .ok resp) →
      evs.length = orders.length := by
  induction orders with
  | nil =>
    intro i evs resp h
    simp [runExecutorAux] at h
    simp [h.1]
  | cons o rest ih =>
    intro i evs resp h
    unfold runExecutorAux at h
    split at h
    · simp at h
    · split at h
      · simp at h
      · simp at h
      · split at h
        · simp at h
        · rename_i evs2 tail heq
          simp at h
          have hlen := ih (i + 1) evs2 tail heq
          rw [← h.1]
          simp [hlen]


theorem isolatedAux_no_creates (env : Env) (idmap : String → Option ℕ)
    (positions : List PositionRec) (l : List Intent) :
    ∀ e ∈ (isolatedAux env idmap positions l).1, isCreateEv e = false := by
  induction l with
  | nil => intro e he; simp [isolatedAux] at he
  | cons o rest ih =>
    intro e he
    unfold isolatedAux at he
    repeat' split at he
    all_goals try simp at he
    all_goals try exact ih e he
    all_goals try (subst he; rfl)
    all_goals rename_i evs r heq
    all_goals rcases he with he | he
    all_goals try (subst he; rfl)
    all_goals exact ih e (by rw [heq]; exact he)

theorem leverageAux_no_creates (env : Env) (idmap : String → Option ℕ)
    (positions : List PositionRec) (l : List Intent) :
    ∀ e ∈ (leverageAux env idmap positions l).1, isCreateEv e = false := by
  induction l with
  | nil => intro e he; simp [leverageAux] at he
  | cons o rest ih =>
    intro e he
    unfold leverageAux at he
    repeat' split at he
    all_goals try simp at he
    all_goals try exact ih e he
    all_goals try (subst he; rfl)
    all_goals rename_i evs r heq
    all_goals rcases he with he | he
    all_goals try (subst he; rfl)
    all_goals exact ih e (by rw [heq]; exact he)

theorem runAdjuster_no_creates (env : Env) (p : PlanOut) :
    ∀ e ∈ (runAdjuster env p).1, isCreateEv e = false := by
  intro e he
  unfold runAdjuster at he
  split at he
  · rename_i evs f heq
    exact isolatedAux_no_creates env _ _ _ e (by rw [heq]; exact he)
  · rename_i evs u heq
    split at he
    rename_i evs2 r heq2
    simp at he
    rcases he with he | he
    · exact isolatedAux_no_creates env _ _ _ e (by rw [heq]; exact he)
    · exact leverageAux_no_creates env _ _ _ e (by rw [heq2]; exact he)

theorem planPhase_events_cases (env : Env) (args : OrderRequest) :
    (planPhase env args).1 = [] ∨ (planPhase env args).1 = [Ev.statsFetch]
    ∨ (planPhase env args).1 = [Ev.statsFetch, Ev.orderBooksFetch]
    ∨ (planPhase env args).1 = [Ev.statsFetch, Ev.orderBooksFetch, Ev.accountFetch] := by
  unfold planPhase
  repeat' split
  all_goals simp

theorem planPhase_no_creates (env : Env) (args : OrderRequest) :
    ∀ e ∈ (planPhase env args).1, isCreateEv e = false := by
  intro e he
  rcases planPhase_events_cases env args with h | h | h | h <;> rw [h] at he <;> simp at he
  · rw [he]; rfl
  · rcases he with he | he <;> (rw [he]; rfl)
  · rcases he with he | he | he <;> (rw [he]; rfl)

/-- A stub orchestrator that fails on every attempt with a distinct
classified error. -/
def stubFail : ℕ → Except Failure Unit := fun n => .error (.httpExc (400 + n) "boom")

-- ## Claims

/-- C1: for every request, `execute_order` fails with the 502 error
`Failed to fetch account index` before validation, planning or any order
submission (once the secrets fetch itself succeeds, the trace is exactly the
secrets fetch and the result is that 502, because `fetch_account_index` reads
the module-level name `secret_data`, which is never defined, raising
`NameError`), and in particular it never returns a success result for any
collaborator behaviour. -/
theorem claim_C1 (env : Env) (args : OrderRequest) :
    (∃ f, (execute_order env args).result = Except.error f)
    ∧ (env.secrets = Except.ok () →
        (execute_order env args).result = Except.error (Failure.httpExc 502
          "Failed to fetch account index: name secret_data is not defined")
        ∧ (execute_order env args).events = [Ev.secretsFetch args.account]) := by
  cases hs : env.secrets with
  | error msg =>
    refine ⟨⟨Failure.httpExc 502 ("Failed to fetch secret: " ++ msg), ?_⟩, ?_⟩
    · simp [execute_order, hs]
    · intro h
      exact absurd h (by simp)
  | ok u =>
    cases u
    refine ⟨⟨Failure.httpExc 502
      "Failed to fetch account index: name secret_data is not defined", ?_⟩,
      fun _ => ⟨?_, ?_⟩⟩ <;>
      simp [execute_order, hs, fetch_account_index, module_scope_has_secret_data, failureText]

/-- Witness for C1 at the concrete demo fixture. -/
theorem claim_C1_witness :
    (demoEnv.secrets = Except.ok ())
    ∧ (execute_order demoEnv demoArgs).result = Except.error (Failure.httpExc 502
        "Failed to fetch account index: name secret_data is not defined")
    ∧ (execute_order demoEnv demoArgs).events = [Ev.secretsFetch demoArgs.account] :=
  ⟨rfl, (claim_C1 demoEnv demoArgs).2 rfl⟩

/-- C2 (counterexample): a request with Σ|fraction| = 3/2 > 1 does not fail
with a 400 validation error and is preceded by a collaborator call (the
secrets fetch): the orchestrator fails with the 502 account-index error.
Moreover, a leverage of 0 (outside [1,5]) passes validation entirely: the
main body runs to a successful result. -/
theorem claim_C2_counterexample :
    sumAbsQuantities argsC2.order > 1
    ∧ (execute_order demoEnv argsC2).result = Except.error (Failure.httpExc 502
        "Failed to fetch account index: name secret_data is not defined")
    ∧ (execute_order demoEnv argsC2).events = [Ev.secretsFetch "acct"]
    ∧ ((argsLev0.order.filter (fun o => o.leverage < 1)).length = 1
        ∧ (execute_order_main demoEnv argsLev0).result.isOk = true) := by
  refine ⟨by decide, ?_, ?_, by decide, by decide⟩
  · exact ((claim_C1 demoEnv argsC2).2 rfl).1
  · exact ((claim_C1 demoEnv argsC2).2 rfl).2

/-- C2 (amended): the validation checks live in the post-fetch body
`execute_order_main` (the secrets fetch and the always-failing account-index
fetch precede them), and only there: when the body is entered, a request with
Σ|fraction| > 1 fails with the 400 sum error before any exchange-data fetch
or gateway call (its trace is empty), and otherwise a request containing a
leverage strictly above 5 fails with the 400 leverage error before any such
call; leverage below 1 is not checked. -/
theorem claim_C2_amended (env : Env) (args : OrderRequest) :
    (sumAbsQuantities args.order > 1 →
      execute_order_main env args =
        { events := [], result := .error (.httpExc 400 "Sum input order > 100%") })
    ∧ (¬ sumAbsQuantities args.order > 1 →
       (args.order.find? (fun o => o.leverage > 5)).isSome →
      execute_order_main env args =
        { events := [],
          result := .error (.httpExc 400 "Leverage factor cannot be more than 5") }) := by
  constructor
  · intro h
    simp [execute_order_main, planPhase, h]
  · intro h h2
    simp [execute_order_main, planPhase, h, h2]

/-- Witness for the amended C2 at the over-allocated request. -/
theorem claim_C2_amended_witness :
    (sumAbsQuantities argsC2.order > 1)
    ∧ execute_order_main demoEnv argsC2 =
        { events := [], result := .error (.httpExc 400 "Sum input order > 100%") } :=
  ⟨by decide, (claim_C2_amended demoEnv argsC2).1 (by decide)⟩

/-- C10: when the orchestrator fails on all three attempts (with classified
HTTP errors), the retry wrapper makes exactly 3 attempts, sends exactly the
three per-attempt failure alerts followed by one `Max retries reached` alert
and no success alert, and surfaces exactly the third attempt`s error,
preserving its status classification. -/
theorem claim_C10 {α : Type} (stub : ℕ → Except Failure α) (f1 f2 : Failure)
    (s : ℕ) (d : String)
    (h1 : stub 1 = .error f1) (h2 : stub 2 = .error f2)
    (h3 : stub 3 = .error (.httpExc s d)) :
    execute_order_with_retry stub =
      (3, [Alert.attemptFailure 1 f1, Alert.attemptFailure 2 f2,
           Alert.attemptFailure 3 (Failure.httpExc s d), Alert.maxRetries],
       .error (.httpExc s d)) := by
  simp [execute_order_with_retry, retryAux, h1, h2, h3]

/-- Witness for C10 at an always-failing stub with distinct statuses. -/
theorem claim_C10_witness :
    (stubFail 1 = .error (.httpExc 401 "boom") ∧ stubFail 2 = .error (.httpExc 402 "boom")
      ∧ stubFail 3 = .error (.httpExc 403 "boom"))
    ∧ execute_order_with_retry stubFail =
      (3, [Alert.attemptFailure 1 (.httpExc 401 "boom"),
           Alert.attemptFailure 2 (.httpExc 402 "boom"),
           Alert.attemptFailure 3 (.httpExc 403 "boom"), Alert.maxRetries],
       .error (.httpExc 403 "boom")) :=
  ⟨⟨rfl, rfl, rfl⟩,
   claim_C10 stubFail (.httpExc 401 "boom") (.httpExc 402 "boom") 403 "boom" rfl rfl rfl⟩

/-- C5 (counterexample): the quantized quantity can exceed the magnitude of
the pre-quantization input: at raw = 0.999999996, stepSize = 1,
sizeDecimals = 0 the 8-decimal pre-rounding rounds the ratio up to 1, so the
result is 1 > 0.999999996. -/
theorem claim_C5_counterexample :
    quantizeQuantity (249999999/250000000) 1 0 = 1
    ∧ |quantizeQuantity (249999999/250000000) 1 0| > |(249999999:ℚ)/250000000| := by
  constructor <;> decide

/-- C5 (amended): for positive step and nonnegative raw input, the quantized
quantity equals the source formula, is the `sizeDecimals`-rounding of a
nonnegative integer multiple of the step (an exact multiple whenever
`stepSize = 10 ^ (-sizeDecimals)`, as the orchestrator always constructs it),
is nonnegative, and exceeds the raw input by at most
`stepSize/(2*10^8) + 1/(2*10^d)` — but it can exceed it. -/
theorem claim_C5_amended (raw step : ℚ) (d : ℕ) (hs : 0 < step) (hr : 0 ≤ raw) :
    quantizeQuantity raw step d = roundTo d ((⌊roundTo 8 (raw / step)⌋ : ℚ) * step)
    ∧ (∃ m : ℤ, 0 ≤ m ∧ quantizeQuantity raw step d = roundTo d ((m : ℚ) * step))
    ∧ 0 ≤ quantizeQuantity raw step d
    ∧ quantizeQuantity raw step d ≤ raw + step / (2 * 10 ^ 8) + 1 / (2 * 10 ^ d)
    ∧ (step = 1 / 10 ^ d → ∃ m : ℤ, quantizeQuantity raw step d = (m : ℚ) * step) := by
  have hq : 0 ≤ raw / step := div_nonneg hr hs.le
  have h8 : 0 ≤ roundTo 8 (raw / step) := roundTo_nonneg 8 hq
  have hm0 : 0 ≤ ⌊roundTo 8 (raw / step)⌋ := Int.floor_nonneg.mpr h8
  have hmQ : (0:ℚ) ≤ ((⌊roundTo 8 (raw / step)⌋ : ℤ) : ℚ) := by exact_mod_cast hm0
  have hdef : quantizeQuantity raw step d
      = roundTo d ((⌊roundTo 8 (raw / step)⌋ : ℚ) * step) := rfl
  refine ⟨rfl, ⟨⌊roundTo 8 (raw / step)⌋, hm0, rfl⟩, ?_, ?_, ?_⟩
  · rw [hdef]
    exact roundTo_nonneg d (mul_nonneg hmQ hs.le)
  · rw [hdef]
    have h1 : ((⌊roundTo 8 (raw / step)⌋ : ℤ) : ℚ) ≤ roundTo 8 (raw / step) :=
      Int.floor_le _
    have h2 : roundTo 8 (raw / step) ≤ raw / step + 1 / (2 * 10 ^ 8) := roundTo_le 8 _
    have h3 : ((⌊roundTo 8 (raw / step)⌋ : ℤ) : ℚ) * step
        ≤ (raw / step + 1 / (2 * 10 ^ 8)) * step := by
      apply mul_le_mul_of_nonneg_right _ hs.le
      linarith
    have h4 : (raw / step + 1 / (2 * 10 ^ 8)) * step = raw + step / (2 * 10 ^ 8) := by
      field_simp
      ring
    have h5 := roundTo_le d (((⌊roundTo 8 (raw / step)⌋ : ℤ) : ℚ) * step)
    rw [h4] at h3
    linarith
  · intro hstep
    refine ⟨⌊roundTo 8 (raw / step)⌋, ?_⟩
    rw [hdef]
    set m := ⌊roundTo 8 (raw / step)⌋ with hm
    rw [hstep]
    have hmul : (m : ℚ) * (1 / 10 ^ d) = (m : ℚ) / 10 ^ d := by ring
    rw [hmul, roundTo_mul_pow]

/-- Witness for the amended C5 at raw = 0.01, step = 0.01, two decimals. -/
theorem claim_C5_amended_witness :
    ((0:ℚ) < 1/100 ∧ (0:ℚ) ≤ 1/100)
    ∧ (quantizeQuantity (1/100) (1/100) 2
        = roundTo 2 ((⌊roundTo 8 ((1:ℚ)/100 / (1/100))⌋ : ℚ) * (1/100))
      ∧ (∃ m : ℤ, 0 ≤ m ∧ quantizeQuantity (1/100) (1/100) 2
          = roundTo 2 ((m : ℚ) * (1/100)))
      ∧ 0 ≤ quantizeQuantity (1/100) (1/100) 2
      ∧ quantizeQuantity (1/100) (1/100) 2
          ≤ 1/100 + (1/100) / (2 * 10 ^ 8) + 1 / (2 * 10 ^ 2)
      ∧ ((1:ℚ)/100 = 1 / 10 ^ 2 → ∃ m : ℤ, quantizeQuantity (1/100) (1/100) 2
          = (m : ℚ) * (1/100))) :=
  ⟨⟨by decide, by decide⟩, claim_C5_amended (1/100) (1/100) 2 (by decide) (by decide)⟩

/-- The Batch B membership condition as the claim words it: the quantized
coin amount clears `minOrderSize` and the (quantized) quantity times price
clears `minNotionalSize`, for non-closing intents.  Stated only for
comparison with the source condition `batchBCond`. -/
def specBatchBCond (o : Intent) : Bool :=
  quantizeQuantity |o.coinAmount| o.stepSize o.sizeDecimals ≥ o.minOrderSize
    && quantizeQuantity |o.coinAmount| o.stepSize o.sizeDecimals * o.marketPrice
        ≥ o.minNotionalSize
    && o.closePosition == false

/-- C6 (counterexample): a non-closing intent whose quantized coin amount
clears both thresholds by the claim`s reading is nevertheless dropped by the
source filter, which truncates the raw ratio without the 8-decimal
pre-rounding and uses the unquantized coin amount for the notional test. -/
theorem claim_C6_counterexample :
    specBatchBCond oStar = true
    ∧ batchBCond oStar = false
    ∧ final_order2 [oStar] = []
    ∧ oStar.closePosition = false := by
  refine ⟨by decide, by decide, by decide, by decide⟩

/-- C6 (amended): Batch B contains exactly the summary intents satisfying the
source condition — `int(|coinAmount|/stepSize)*stepSize ≥ minOrderSize`
(truncation of the raw ratio, not the quantized amount) and raw
`|coinAmount| * marketPrice ≥ minNotionalSize` and `closePosition = false` —
each mapped to its final order; intents failing the condition are silently
dropped.  The spec example (quantized quantity 0.0005 at price 100 against
minimums 0.001 and 10) is dropped, with no order and no error. -/
theorem claim_C6_amended :
    (∀ (summary : List Intent) (b : FinalOrder),
       b ∈ final_order2 summary
         ↔ ∃ o, o ∈ summary ∧ batchBCond o = true ∧ mkFinalOrder o = b)
    ∧ quantizeQuantity |oEx.coinAmount| oEx.stepSize oEx.sizeDecimals = 1/2000
    ∧ batchBCond oEx = false
    ∧ final_order2 [oEx] = [] := by
  refine ⟨?_, by decide, by decide, by decide⟩
  intro summary b
  unfold final_order2
  constructor
  · intro hb
    rcases List.mem_map.mp hb with ⟨o, ho, rfl⟩
    have h1 := mem_sortByEFDesc.mp ho
    have h2 := List.mem_filter.mp h1
    exact ⟨o, h2.1, h2.2, rfl⟩
  · rintro ⟨o, ho, hc, rfl⟩
    exact List.mem_map.mpr ⟨o, mem_sortByEFDesc.mpr (List.mem_filter.mpr ⟨ho, hc⟩), rfl⟩

/-- C7 (counterexample): a closing intent for a 0.0001 position with step
0.001 quantizes to quantity 0, and the zero-quantity order is not dropped:
a market order with base amount 0 is submitted to the gateway (and the run
reports success). -/
theorem claim_C7_counterexample :
    (execute_order_main envC7 argsEmpty).events =
      [Ev.statsFetch, Ev.orderBooksFetch, Ev.accountFetch,
       Ev.createMarketOrder 0 1000 0 9700 true true]
    ∧ (execute_order_main envC7 argsEmpty).result.isOk = true := by
  constructor <;> decide

/-- C7 (amended): every order in either final batch has nonnegative quantity
(the first half of the claim); zero-quantity orders are not filtered (see the
counterexample). -/
theorem claim_C7_amended (summary : List Intent) (o : FinalOrder)
    (ho : o ∈ final_order1 summary ∨ o ∈ final_order2 summary) :
    0 ≤ o.quantity := by
  rcases ho with ho | ho
  · unfold final_order1 at ho
    rcases List.mem_map.mp ho with ⟨i, _, rfl⟩
    exact quantize_abs_nonneg i.coinAmount i.stepSize i.sizeDecimals
  · unfold final_order2 at ho
    rcases List.mem_map.mp ho with ⟨i, _, rfl⟩
    exact quantize_abs_nonneg i.coinAmount i.stepSize i.sizeDecimals

/-- Witness for the amended C7 at a concrete closing intent. -/
theorem claim_C7_amended_witness :
    (mkFinalOrder cIntent ∈ final_order1 [cIntent]
      ∨ mkFinalOrder cIntent ∈ final_order2 [cIntent])
    ∧ 0 ≤ (mkFinalOrder cIntent).quantity :=
  ⟨Or.inl (by decide),
   claim_C7_amended [cIntent] (mkFinalOrder cIntent) (Or.inl (by decide))⟩

/-- C9 (counterexample): with an open position whose margin fraction is zero,
the planner performs the unguarded division and the run fails with an
uncaught `ZeroDivisionError` — not with any `PlanningError`-style HTTP
error. -/
theorem claim_C9_counterexample :
    (execute_order_main envC9 argsEmpty).result = Except.error Failure.zeroDivisionError := by
  decide

/-- C9 (amended): the leverage computation `int(100 / initial_margin_fraction)`
is unguarded in all three places.  In the planner a zero margin fraction
makes the current-positions step fail with `ZeroDivisionError` (uncaught by
the orchestrator); in the isolated-margin pass (position found, not isolated,
market id present) and in the leverage pass (position found, checked even
before the market-id lookup) the loop fails the same way, and the
orchestrator wraps the adjuster failure into a 500
`Error executing leverage/margin updates` HTTP error. -/
theorem claim_C9_amended :
    (∀ (price : String → Option ℚ) (tmb : ℚ) (p : PositionRec) (mp : ℚ),
       price p.symbol = some mp → p.initial_margin_fraction = 0 →
       currentsAux price tmb [p] = .error Failure.zeroDivisionError)
    ∧ (∀ (env : Env) (idmap : String → Option ℕ) (positions : List PositionRec)
         (o : Intent) (rest : List Intent) (p : PositionRec) (mid : ℕ),
       idmap o.symbol = some mid →
       positions.find? (fun q => q.symbol == o.symbol) = some p →
       p.margin_mode ≠ ISOLATED_MARGIN_MODE → p.initial_margin_fraction = 0 →
       isolatedAux env idmap positions (o :: rest) = ([], .error Failure.zeroDivisionError))
    ∧ (∀ (env : Env) (idmap : String → Option ℕ) (positions : List PositionRec)
         (o : Intent) (rest : List Intent) (p : PositionRec),
       positions.find? (fun q => q.symbol == o.symbol) = some p →
       p.initial_margin_fraction = 0 →
       leverageAux env idmap positions (o :: rest) = ([], .error Failure.zeroDivisionError))
    ∧ (execute_order_main envC9b argsC9b).result = Except.error (Failure.httpExc 500
        "Error executing leverage/margin updates: float division by zero") := by
  refine ⟨?_, ?_, ?_, by decide⟩
  · intro price tmb p mp hp h0
    simp [currentsAux, hp, h0]
  · intro env idmap positions o rest p mid hmid hfind hmm h0
    simp [isolatedAux, hmid, hfind, hmm, h0]
  · intro env idmap positions o rest p hfind h0
    simp [leverageAux, currentLeverageOf, hfind, h0]

/-- Witness for the amended C9 at the concrete zero-margin position. -/
theorem claim_C9_amended_witness :
    ((fun (_ : String) => some (100:ℚ)) c9Pos.symbol = some 100
      ∧ c9Pos.initial_margin_fraction = 0)
    ∧ currentsAux (fun _ => some 100) 980 [c9Pos] = .error Failure.zeroDivisionError :=
  ⟨⟨rfl, rfl⟩, (claim_C9_amended).1 (fun _ => some 100) 980 c9Pos 100 rfl rfl⟩

/-- The current-position record of the C4 fixture (BTC 0.01 long at 3x with
margin balance 980 and price 100). -/
def curC4 : CurPos :=
  { symbol := "BTC"
    quantity := 1/100
    quantityPercentage := 1/2940
    leverage := 3 }

/-- C4: for every open position whose target allocation is absent or has
fraction exactly zero (and whose symbol resolves in the price and order-book
data), the planner emits a closing intent with `percentage =
-quantityPercentage`, `coinAmount = -signedQuantity`, `closePosition = true`,
`executePriority = false`; every closing intent with nonzero coin amount is
placed in Batch A by a condition that mentions no minimum-size or
minimum-notional threshold; and in the concrete case (signedQuantity 0.01,
leverage 3, target fraction 0, minimum order size 1 and minimum notional
1000) the executor still submits the SELL market order for the quantized
0.01. -/
theorem claim_C4 :
    (∀ (targets : List OrderIn) (stats : List ExchangeStat) (books : List OrderBookRec)
       (tmb : ℚ) (cur : CurPos) (mp : ℚ) (ob : OrderBookRec),
       priceLookup stats cur.symbol = some mp →
       books.find? (fun b => b.symbol == cur.symbol) = some ob →
       isAbsentOrZero (targets.find? (fun np => np.symbol == cur.symbol)) = true →
       buildPartOneEntry targets stats books tmb cur = .ok
         { symbol := cur.symbol
           percentage := -cur.quantityPercentage
           usdAmount := -cur.quantityPercentage * tmb
           coinAmount := -cur.quantity
           minOrderSize := ob.min_base_amount
           minNotionalSize := ob.min_quote_amount
           stepSize := 1 / 10 ^ ob.supported_size_decimals
           sizeDecimals := ob.supported_size_decimals
           priceDecimals := ob.supported_price_decimals
           marketPrice := roundTo 8 mp
           leverage := cur.leverage
           closePosition := true
           executeFirst := 0 })
    ∧ (∀ (summary : List Intent) (o : Intent),
        o ∈ summary → o.closePosition = true → o.coinAmount ≠ 0 →
        mkFinalOrder o ∈ final_order1 summary)
    ∧ ((execute_order_main envC4 argsC4).events =
        [Ev.statsFetch, Ev.orderBooksFetch, Ev.accountFetch,
         Ev.createMarketOrder 0 1000 1 9700 true true]
       ∧ (execute_order_main envC4 argsC4).result.map (fun r => r.order1AfterAdjusted)
          = Except.ok [{ symbol := "BTC", side := "SELL", quantity := 1/100,
                         marketPrice := 100, sizeDecimals := 2, priceDecimals := 2 }]) := by
  refine ⟨?_, ?_, by decide, by decide⟩
  · intro targets stats books tmb cur mp ob hp hob habs
    simp [buildPartOneEntry, hp, hob, habs]
  · intro summary o ho hclose hne
    unfold final_order1
    refine List.mem_map.mpr ⟨o, mem_sortByEFDesc.mpr (List.mem_filter.mpr ⟨ho, ?_⟩), rfl⟩
    simp [batchACond, hclose, abs_pos.mpr hne]

/-- Witness for C4 applying the closing-intent equation and the Batch A
membership at the concrete BTC fixture. -/
theorem claim_C4_witness :
    (priceLookup [{ symbol := "BTC", last_trade_price := 100 }] curC4.symbol = some 100
      ∧ [c4Book].find? (fun b => b.symbol == curC4.symbol) = some c4Book
      ∧ isAbsentOrZero (argsC4.order.find? (fun np => np.symbol == curC4.symbol)) = true)
    ∧ buildPartOneEntry argsC4.order [{ symbol := "BTC", last_trade_price := 100 }]
        [c4Book] 980 curC4 = .ok
         { symbol := curC4.symbol
           percentage := -curC4.quantityPercentage
           usdAmount := -curC4.quantityPercentage * 980
           coinAmount := -curC4.quantity
           minOrderSize := c4Book.min_base_amount
           minNotionalSize := c4Book.min_quote_amount
           stepSize := 1 / 10 ^ c4Book.supported_size_decimals
           sizeDecimals := c4Book.supported_size_decimals
           priceDecimals := c4Book.supported_price_decimals
           marketPrice := roundTo 8 100
           leverage := curC4.leverage
           closePosition := true
           executeFirst := 0 }
    ∧ (cIntent ∈ [cIntent] ∧ cIntent.closePosition = true ∧ cIntent.coinAmount ≠ 0
        ∧ mkFinalOrder cIntent ∈ final_order1 [cIntent]) :=
  ⟨⟨by decide, by decide, by decide⟩,
   (claim_C4).1 argsC4.order [{ symbol := "BTC", last_trade_price := 100 }] [c4Book]
     980 curC4 100 c4Book (by decide) (by decide) (by decide),
   by decide, by decide, by decide,
   (claim_C4).2.1 [cIntent] cIntent (by decide) (by decide) (by decide)⟩

/-- C8 (code_bug): in one successful run with one Batch A order and one
Batch B order, both submissions carry `clientOrderIndex = 1000`: both
executor calls use the default `base_index = 1000` (and every run reuses it),
contradicting the claim and the source docstring
`base_index: ensures unique client_order_index across runs`. -/
theorem claim_C8_code_bug :
    (execute_order_main demoEnv demoArgs).events =
      [Ev.statsFetch, Ev.orderBooksFetch, Ev.accountFetch, Ev.updateLeverage 2 1 1,
       Ev.createMarketOrder 0 1000 1 9700 true true,
       Ev.createMarketOrder 1 1000 1960 10300 false false]
    ∧ (execute_order_main demoEnv demoArgs).events.filterMap coiOf = [1000, 1000]
    ∧ (execute_order_main demoEnv demoArgs).result.isOk = true := by
  refine ⟨by decide, by decide, by decide⟩

theorem submit_create {r : Bool} {e : Ev} (h : isSubmitEv r e = true) :
    isCreateEv e = true := by
  cases e <;> simp [isSubmitEv, isCreateEv] at h ⊢

theorem submit_excl {r : Bool} {e : Ev} (h : isSubmitEv r e = true) :
    isSubmitEv (!r) e = false := by
  cases e <;> simp [isSubmitEv] at h ⊢
  subst h
  simp

theorem not_create_not_submit {r : Bool} {e : Ev} (h : isCreateEv e = false) :
    isSubmitEv r e = false := by
  cases e <;> simp [isSubmitEv, isCreateEv] at h ⊢

theorem filter_facts_true (l : List Ev) (h : ∀ e ∈ l, isSubmitEv true e = true) :
    l.filter isCreateEv = l ∧ l.filter (isSubmitEv true) = l
      ∧ l.filter (isSubmitEv false) = [] := by
  refine ⟨List.filter_eq_self.mpr (fun e he => submit_create (h e he)),
          List.filter_eq_self.mpr h,
          List.filter_eq_nil_iff.mpr (fun e he => ?_)⟩
  have hx : isSubmitEv false e = false := submit_excl (h e he)
  simp [hx]

theorem filter_facts_false (l : List Ev) (h : ∀ e ∈ l, isSubmitEv false e = true) :
    l.filter isCreateEv = l ∧ l.filter (isSubmitEv false) = l
      ∧ l.filter (isSubmitEv true) = [] := by
  refine ⟨List.filter_eq_self.mpr (fun e he => submit_create (h e he)),
          List.filter_eq_self.mpr h,
          List.filter_eq_nil_iff.mpr (fun e he => ?_)⟩
  have hx : isSubmitEv true e = false := submit_excl (h e he)
  simp [hx]

theorem filter_facts_none (l : List Ev) (h : ∀ e ∈ l, isCreateEv e = false) :
    l.filter isCreateEv = [] ∧ l.filter (isSubmitEv true) = []
      ∧ l.filter (isSubmitEv false) = [] := by
  refine ⟨List.filter_eq_nil_iff.mpr (fun e he => by simp [h e he]),
          List.filter_eq_nil_iff.mpr (fun e he => by simp [not_create_not_submit (h e he)]),
          List.filter_eq_nil_iff.mpr (fun e he => by simp [not_create_not_submit (h e he)])⟩

/-- C3: in every run, the ordered subsequence of market-order submissions is
exactly the Batch A submissions (executed with `reduce_only = 1`) followed by
the Batch B submissions (executed with `reduce_only = 0`), regardless of the
priority flags of either batch; and whenever any Batch B order is submitted,
the Batch A submissions number exactly one per Batch A order — Batch A was
submitted in full first. -/
theorem claim_C3 (env : Env) (args : OrderRequest) :
    ((execute_order_main env args).events.filter isCreateEv
      = (execute_order_main env args).events.filter (isSubmitEv true)
        ++ (execute_order_main env args).events.filter (isSubmitEv false))
    ∧ ((execute_order_main env args).events.filter (isSubmitEv false) ≠ [] →
       ∃ p, (planPhase env args).2 = Except.ok p
         ∧ ((execute_order_main env args).events.filter (isSubmitEv true)).length
             = (final_order1 p.summary).length) := by
  cases hplan : planPhase env args with
  | mk evs res =>
    have hplanEvs : ∀ e ∈ evs, isCreateEv e = false := by
      intro e he
      exact planPhase_no_creates env args e (by rw [hplan]; exact he)
    obtain ⟨hp1, hp2, hp3⟩ := filter_facts_none evs hplanEvs
    cases res with
    | error f =>
      have hev : (execute_order_main env args).events = evs := by
        simp [execute_order_main, hplan]
      rw [hev, hp1, hp2, hp3]
      exact ⟨rfl, fun hne => absurd rfl hne⟩
    | ok p =>
      cases hadj : runAdjuster env p with
      | mk aEvs ares =>
        have hadjEvs : ∀ e ∈ aEvs, isCreateEv e = false := by
          intro e he
          exact runAdjuster_no_creates env p e (by rw [hadj]; exact he)
        obtain ⟨ha1, ha2, ha3⟩ := filter_facts_none aEvs hadjEvs
        cases ares with
        | error f =>
          have hev : (execute_order_main env args).events = evs ++ aEvs := by
            simp [execute_order_main, hplan, hadj]
          rw [hev]
          rw [List.filter_append, List.filter_append, List.filter_append,
              hp1, hp2, hp3, ha1, ha2, ha3]
          exact ⟨rfl, fun hne => absurd rfl hne⟩
        | ok u =>
          cases hex1 : execute_final_market_orders env p.books (final_order1 p.summary)
              true 1000 with
          | mk e1 r1 =>
            have hex1r : runExecutorAux env (build_market_id_map p.books) true 1000
                (final_order1 p.summary) 0 = (e1, r1) := hex1
            have he1 : ∀ e ∈ e1, isSubmitEv true e = true := by
              intro e he
              exact runExecutorAux_events env (build_market_id_map p.books) true 1000
                (final_order1 p.summary) 0 e (by rw [hex1r]; exact he)
            obtain ⟨he11, he12, he13⟩ := filter_facts_true e1 he1
            cases r1 with
            | error f =>
              have hev : (execute_order_main env args).events = evs ++ aEvs ++ e1 := by
                simp [execute_order_main, hplan, hadj, hex1]
              rw [hev]
              rw [List.filter_append, List.filter_append, List.filter_append,
                  List.filter_append, List.filter_append, List.filter_append,
                  hp1, hp2, hp3, ha1, ha2, ha3, he11, he12, he13]
              exact ⟨by simp, fun hne => absurd rfl hne⟩
            | ok resp1 =>
              cases hex2 : execute_final_market_orders env p.books (final_order2 p.summary)
                  false 1000 with
              | mk e2 r2 =>
                have hex2r : runExecutorAux env (build_market_id_map p.books) false 1000
                    (final_order2 p.summary) 0 = (e2, r2) := hex2
                have he2 : ∀ e ∈ e2, isSubmitEv false e = true := by
                  intro e he
                  exact runExecutorAux_events env (build_market_id_map p.books) false 1000
                    (final_order2 p.summary) 0 e (by rw [hex2r]; exact he)
                obtain ⟨he21, he22, he23⟩ := filter_facts_false e2 he2
                have hev : (execute_order_main env args).events
                    = evs ++ aEvs ++ e1 ++ e2 := by
                  cases r2 with
                  | error f => simp [execute_order_main, hplan, hadj, hex1, hex2]
                  | ok resp2 =>
                    cases hhe : hasBatchError (resp1 ++ resp2) <;>
                      simp [execute_order_main, hplan, hadj, hex1, hex2, hhe]
                rw [hev]
                rw [List.filter_append, List.filter_append, List.filter_append,
                    List.filter_append, List.filter_append, List.filter_append,
                    List.filter_append, List.filter_append, List.filter_append,
                    hp1, hp2, hp3, ha1, ha2, ha3, he11, he12, he13, he21, he22, he23]
                constructor
                · simp
                · intro _
                  refine ⟨p, rfl, ?_⟩
                  simp
                  exact runExecutorAux_ok_length env (build_market_id_map p.books) true
                    1000 (final_order1 p.summary) 0 e1 resp1 hex1r

/-- Witness for C3 at the demo fixture, whose run submits one Batch A and one
Batch B order. -/
theorem claim_C3_witness :
    ((execute_order_main demoEnv demoArgs).events.filter (isSubmitEv false) ≠ [])
    ∧ ∃ p, (planPhase demoEnv demoArgs).2 = Except.ok p
        ∧ ((execute_order_main demoEnv demoArgs).events.filter (isSubmitEv true)).length
            = (final_order1 p.summary).length :=
  ⟨by decide, (claim_C3 demoEnv demoArgs).2 (by decide)⟩
